import Mathlib

/-!
A shallow embedding of `src/old/js/lib/slab.js` (the Slab storage substrate of
convergencelabs/unbase) and proofs about its behaviour.

Modelling conventions:
* JS objects used as dictionaries become association lists (`List (String × α)`);
  property insertion order is preserved (assignment to a fresh key appends,
  assignment to an existing key updates in place), matching JS enumeration order.
* The doubly linked LRU ring (`_older`/`_newer` pointers plus `head`/`tail`) is
  represented as a list of memo ids, head first, tail last.  For well formed
  lists (each resident id linked exactly once) the pointer surgery in the source
  is exactly erase / append on this list, which is how each branch is modelled.
* `this.size` is a JS number that the source decrements without a lower guard,
  so it is modelled as `Int`.
* Calls into the external mesh collaborator are recorded in an event log
  (`Slab.calls`); the mesh's reply to `getAcceptingSlabIDs` is a function
  parameter `MeshFn`.  Record subscribers are opaque tokens (`Nat`) and their
  `addedMemos` callbacks are recorded in `Slab.notify_log`.
* JS exceptions (`throw`, TypeError from calling methods of `undefined`/strings)
  are surfaced as a `JsOutcome`; state mutated before the throw is kept, as in JS.
* Promises: the executor of `checkMemoReplicationFactor` runs synchronously and
  the first call to `success` fixes the promise value (`success()` with no
  argument yields `undefined`, which is falsy).  `.then` callbacks run after the
  synchronous part of the triggering operation; deferred kills are therefore
  applied at the end of `putMemo`, which models a quiescent point.
-/

namespace Unbase

/-- The attributes of a memo that the slab reads (`memo.id`, `memo.rid`,
`memo.parents`, `memo.desiredReplicas()`). -/
structure Memo where
  id : String
  rid : String
  parents : List String
  desired_replicas : Int
deriving Repr, DecidableEq

/-- One entry of `ref_peerings`: the local memos referencing this memo id and
the remote slabs participating, with their peer states. -/
structure RefPeering where
  memos : List String
  remotes : List (String × Int)
deriving Repr, DecidableEq

/-- A recorded call from the slab into the external mesh collaborator. -/
inductive MeshCall where
  | registerSlab (slab_id : String)
  | getAccepting (exclusions : List String) (desired : Int)
  | push (from_slab to_slab memo_id : String)
  | sendPeeringChanges (from_slab : String) (changes : List (String × List (String × Int)))
deriving Repr, DecidableEq

/-- How a JS call returned: normally, via the `console.error`-and-return path,
or by raising an exception. -/
inductive JsOutcome where
  | ok
  | logged
  | threw (msg : String)
deriving Repr, DecidableEq

/-- The settled value of the promise built by `checkMemoReplicationFactor`:
`undef` models resolution via the argumentless `success()` (a falsy value),
`val_true` models `success(true)`, `rejected` models a TypeError thrown in the
executor before any resolution. -/
inductive PromiseVal where
  | undef
  | val_true
  | rejected
deriving Repr, DecidableEq

/-- The mutable state of one Slab (`this` in the source), plus the event logs
for mesh calls and subscriber notifications. -/
structure Slab where
  id : String
  memos_by_id : List (String × Memo)
  memo_ids_by_record : List (String × List String)
  memo_ids_by_parent : List (String × String)
  records_by_id : List (String × List Nat)
  lru : List String
  size : Int
  quota : Int
  limit : Int
  local_peerings : List (String × List String)
  ref_peerings : List (String × RefPeering)
  calls : List MeshCall
  notify_log : List (Nat × String)
deriving Repr, DecidableEq

/-- The mesh's reply to `getAcceptingSlabIDs(exclusions, desired)`. -/
abbrev MeshFn := List String → Int → List String

/- Association-list primitives mirroring JS object property access. -/

/-- `obj[key]` — first binding wins (keys are unique in states the code builds). -/
def alGet {α : Type} : List (String × α) → String → Option α
  | [], _ => none
  | (k, v) :: rest, key => if k = key then some v else alGet rest key

/-- `obj[key] = val` — update in place if present, else append (JS key order). -/
def alSet {α : Type} : List (String × α) → String → α → List (String × α)
  | [], key, val => [(key, val)]
  | (k, v) :: rest, key, val =>
    if k = key then (k, val) :: rest else (k, v) :: alSet rest key val

/-- `delete obj[key]`. -/
def alRemove {α : Type} : List (String × α) → String → List (String × α)
  | [], _ => []
  | (k, v) :: rest, key => if k = key then rest else (k, v) :: alRemove rest key

/-- JS truthiness of a possibly-missing string: `undefined` and `""` are falsy. -/
def jsFalsyStr : Option String → Bool
  | none => true
  | some s => s.isEmpty

/-- JS truthiness of a possibly-missing number: `undefined` and `0` are falsy. -/
def jsFalsyInt : Option Int → Bool
  | none => true
  | some v => v == 0

/-- `arr.splice(arr.indexOf(x), 1)`: removes the first occurrence of `x`; when
`x` is absent, `indexOf` yields `-1` and `splice(-1, 1)` removes the last
element. -/
def recordSplice (l : List String) (x : String) : List String :=
  if x ∈ l then l.erase x else l.dropLast

/-- `changes[remote] = changes[remote] || {}; changes[remote][mid] = st`. -/
def addChange (ch : List (String × List (String × Int))) (remote mid : String)
    (st : Int) : List (String × List (String × Int)) :=
  alSet ch remote (alSet ((alGet ch remote).getD []) mid st)

/- Peering registry (C3 of the spec). -/

/-- Accumulator while folding over the `peerings` argument of
`updateMemoPeerings`. -/
structure UpdAcc where
  refs : List String
  rp : List (String × RefPeering)
  changes : List (String × List (String × Int))

/-- Body of the outer `forEach` of `updateMemoPeerings` for one referenced memo
id: extend `refs` and the ref's memo list if absent, and record any remote slab
that is not this slab and not already present (falsy) in `remotes`. -/
def updOneRef (sid mid : String) (acc : UpdAcc)
    (entry : String × List (String × Int)) : UpdAcc :=
  let ref_id := entry.1
  let refs' := if ref_id ∈ acc.refs then acc.refs else acc.refs ++ [ref_id]
  let r0 := (alGet acc.rp ref_id).getD ⟨[], []⟩
  let r1 := if mid ∈ r0.memos then r0 else { r0 with memos := r0.memos ++ [mid] }
  let step := entry.2.foldl
    (fun (p : RefPeering × List (String × List (String × Int))) rs =>
      if !(rs.1 == sid) && jsFalsyInt (alGet p.1.remotes rs.1) then
        ({ p.1 with remotes := alSet p.1.remotes rs.1 rs.2 },
          addChange p.2 rs.1 mid rs.2)
      else p)
    (r1, acc.changes)
  { refs := refs', rp := alSet acc.rp ref_id step.1, changes := step.2 }

/-- `Slab.prototype.updateMemoPeerings(memo, peerings, silent)`. -/
def updateMemoPeerings (s : Slab) (mid : String)
    (peerings : List (String × List (String × Int))) (silent : Bool) : Slab :=
  let acc := peerings.foldl (updOneRef s.id mid)
    ⟨(alGet s.local_peerings mid).getD [], s.ref_peerings, []⟩
  let s1 := { s with local_peerings := alSet s.local_peerings mid acc.refs,
                     ref_peerings := acc.rp }
  if !silent && !acc.changes.isEmpty then
    { s1 with calls := s1.calls ++ [MeshCall.sendPeeringChanges s.id acc.changes] }
  else s1

/-- `Slab.prototype.registerMemoPeering`: singleton form of the above. -/
def registerMemoPeering (s : Slab) (mid ref_memo_id remote_slab_id : String)
    (peer_state : Int) (silent : Bool) : Slab :=
  updateMemoPeerings s mid [(ref_memo_id, [(remote_slab_id, peer_state)])] silent

/-- `Slab.prototype.getMemoPeers(memo_id, has_memo)`: `none` models the JS
`null` returned when the memo id has no `ref_peerings` entry. -/
def getMemoPeers (s : Slab) (mid : String) (has_memo : Bool) : Option (List String) :=
  match alGet s.ref_peerings mid with
  | none => none
  | some r =>
    if has_memo then some ((r.remotes.filter (fun p => p.2 == 2)).map Prod.fst)
    else some ((r.remotes.filter (fun p => !(p.2 == 0))).map Prod.fst)

/-- The `refs.forEach` loop of `deregisterPeeringForMemo`.  A missing
`ref_peerings` entry makes the source read `r.memos` of `undefined`, a
TypeError that aborts the loop with the mutations so far kept. -/
def deregLoop (mid : String) : List String → List (String × RefPeering) →
    List (String × List (String × Int)) →
    (List (String × RefPeering) × List (String × List (String × Int)) × Option String)
  | [], rp, ch => (rp, ch, none)
  | ref_id :: rest, rp, ch =>
    match alGet rp ref_id with
    | none => (rp, ch, some "TypeError: cannot read memos of undefined")
    | some r =>
      let memos' := r.memos.filter (fun i => !(i == mid))
      if memos'.isEmpty then
        let ch' := r.remotes.foldl (fun c p => addChange c p.1 mid 0) ch
        deregLoop mid rest (alRemove rp ref_id) ch'
      else
        deregLoop mid rest (alSet rp ref_id { r with memos := memos' }) ch

/-- `Slab.prototype.deregisterPeeringForMemo(memo)`.  On normal completion the
`local_peerings` entry is deleted and `mesh.sendPeeringChanges` is emitted
unconditionally (even with an empty change set); on a TypeError mid-loop the
partially mutated `ref_peerings` is kept and neither of those happens. -/
def deregisterPeeringForMemo (s : Slab) (mid : String) : Slab × JsOutcome :=
  match deregLoop mid ((alGet s.local_peerings mid).getD []) s.ref_peerings [] with
  | (rp, _, some e) => ({ s with ref_peerings := rp }, JsOutcome.threw e)
  | (rp, ch, none) =>
    ({ s with ref_peerings := rp,
              local_peerings := alRemove s.local_peerings mid,
              calls := s.calls ++ [MeshCall.sendPeeringChanges s.id ch] },
      JsOutcome.ok)

/- Replication guard (C4 of the spec). -/

/-- `Slab.prototype.checkMemoReplicationFactor(memo)`.  The promise executor
runs synchronously.  When `desired <= 0` the source calls `success()` (settling
the promise with the falsy `undefined`) but — lacking a `return` — still goes on
to call `mesh.getAcceptingSlabIDs` and push the memo to every returned slab,
finally calling the now ineffective `success(true)`.  When the memo has no
`ref_peerings` entry, `peers` is `null` and `peers.concat` throws inside the
executor: the promise rejects unless it was already settled by `success()`. -/
def checkMemoReplicationFactor (mesh : MeshFn) (s : Slab) (m : Memo) :
    Slab × PromiseVal :=
  let desired := m.desired_replicas
  match getMemoPeers s m.id true with
  | none => (s, if desired ≤ 0 then PromiseVal.undef else PromiseVal.rejected)
  | some peers =>
    let exclusions := peers ++ [s.id]
    let slab_ids := mesh exclusions desired
    let s1 := { s with calls := s.calls ++ [MeshCall.getAccepting exclusions desired] }
    let s2 := slab_ids.foldl
      (fun t tid => { t with calls := t.calls ++ [MeshCall.push s.id tid m.id] }) s1
    (s2, if desired ≤ 0 then PromiseVal.undef else PromiseVal.val_true)

/- LRU and the memo indexes (C1, C2 of the spec). -/

/-- `Slab.prototype.getMemo(id)`: returns the memo and promotes it to the LRU
tail unless it already is the tail. -/
def getMemo (s : Slab) (mid : String) : Option Memo × Slab :=
  match alGet s.memos_by_id mid with
  | none => (none, s)
  | some m =>
    if s.lru.getLast? = some mid then (some m, s)
    else (some m, { s with lru := s.lru.erase mid ++ [mid] })

/-- `Slab.prototype.killMemo(memo)`.  After the head-memo protection check the
source deletes the `memos_by_id` entry and splices the record index, then for
each parent id reads `_memo_ids_by_parent[parent_id]` — which `putMemo` set to
a plain string (the child id) — and calls `.splice` on it.  Strings have no
`splice` (and a missing entry has no `indexOf`), so a memo with any parent
throws a TypeError there, keeping the mutations made so far and never reaching
the peering teardown, the LRU unlink or the size decrement. -/
def killMemo (s : Slab) (mid : String) : Slab × JsOutcome :=
  match alGet s.memos_by_id mid with
  | none => (s, JsOutcome.logged)
  | some m =>
    if (alGet s.records_by_id m.rid).isSome &&
        jsFalsyStr (alGet s.memo_ids_by_parent m.id) then
      (s, JsOutcome.ok)
    else
      let s1 := { s with memos_by_id := alRemove s.memos_by_id m.id }
      match alGet s1.memo_ids_by_record m.rid with
      | none => (s1, JsOutcome.threw "TypeError: cannot read indexOf of undefined")
      | some mbr =>
        let mbr' := alSet s1.memo_ids_by_record m.rid (recordSplice mbr m.id)
        let s2 := { s1 with memo_ids_by_record := mbr' }
        match m.parents with
        | p :: _ =>
          match alGet s2.memo_ids_by_parent p with
          | none => (s2, JsOutcome.threw "TypeError: cannot read indexOf of undefined")
          | some _ => (s2, JsOutcome.threw "TypeError: ref.splice is not a function")
        | [] =>
          match deregisterPeeringForMemo s2 m.id with
          | (s3, JsOutcome.threw e) => (s3, JsOutcome.threw e)
          | (s3, _) =>
            ({ s3 with lru := s3.lru.erase m.id, size := s3.size - 1 }, JsOutcome.ok)

/-- `Slab.prototype.evictMemo(memo)` called with a string id.  An unknown id
resolves to `undefined` and the source throws.  Otherwise the replication check
runs synchronously (logging its mesh calls) and the kill is deferred to the
promise's `.then` callback: it fires only if the settled value is truthy, which
the third component records as a pending `(id, will_kill)` entry. -/
def evictMemoById (mesh : MeshFn) (s : Slab) (mid : String) :
    Slab × JsOutcome × List (String × Bool) :=
  match alGet s.memos_by_id mid with
  | none => (s, JsOutcome.threw "attempted to evict invalid memo", [])
  | some m =>
    let r := checkMemoReplicationFactor mesh s m
    (r.1, JsOutcome.ok, [(mid, decide (r.2 = PromiseVal.val_true))])

/-- The `while (memo && ct--)` walk of `evictMemos`: the victims are the first
`ct` memos from the LRU head (kills are deferred, so the `_newer` links are
still intact during the walk).  Each victim's replication check runs now; the
kill decision is queued. -/
def evictLoop (mesh : MeshFn) : Slab → List String → List (String × Bool) →
    Slab × List (String × Bool)
  | s, [], acc => (s, acc)
  | s, vid :: rest, acc =>
    match alGet s.memos_by_id vid with
    | none => evictLoop mesh s rest acc
    | some vm =>
      let r := checkMemoReplicationFactor mesh s vm
      evictLoop mesh r.1 rest (acc ++ [(vid, decide (r.2 = PromiseVal.val_true))])

/-- `Slab.prototype.evictMemos()`: synchronous part.  `ct = size - quota`; if
not positive, return.  Otherwise schedule `ct` victims starting at the head. -/
def evictMemosSync (mesh : MeshFn) (s : Slab) : Slab × List (String × Bool) :=
  let ct : Int := s.size - s.quota
  if ct ≤ 0 then (s, [])
  else evictLoop mesh s (s.lru.take ct.toNat) []

/-- The deferred `.then` callbacks of the scheduled evictions, run in order once
the synchronous part of the triggering operation finishes: each kills its memo
only if the promise value was truthy.  A TypeError inside a callback surfaces
as an unhandled rejection and does not stop later callbacks. -/
def runKills : Slab → List (String × Bool) → Slab
  | s, [] => s
  | s, (mid, b) :: rest => runKills (if b then (killMemo s mid).1 else s) rest

/-- `Slab.prototype.putMemo(memo)` up to quiescence (deferred eviction kills
included).  Mirrors the source order: duplicate check, the three indexes,
subscriber notification, LRU tail link, the size/limit branch (which skips the
increment when `size === limit` and runs `evictMemos` instead), the
self-peering registration, and the replication check whose promise value is
discarded. -/
def putMemo (mesh : MeshFn) (s : Slab) (m : Memo) : Slab :=
  if (alGet s.memos_by_id m.id).isSome then s
  else
    let s1 := { s with memos_by_id := alSet s.memos_by_id m.id m }
    let mbr := ((alGet s1.memo_ids_by_record m.rid).getD []) ++ [m.id]
    let s2 := { s1 with memo_ids_by_record := alSet s1.memo_ids_by_record m.rid mbr }
    let mp' := m.parents.foldl (fun mp p => alSet mp p m.id) s2.memo_ids_by_parent
    let s3 := { s2 with memo_ids_by_parent := mp' }
    let subs := (alGet s3.records_by_id m.rid).getD []
    let s4 := { s3 with notify_log := s3.notify_log ++ subs.map (fun t => (t, m.id)) }
    let s5 := { s4 with lru := s4.lru ++ [m.id] }
    let step := if s5.size = s5.limit then evictMemosSync mesh s5
      else ({ s5 with size := s5.size + 1 }, [])
    let s7 := registerMemoPeering step.1 m.id m.id step.1.id 2 false
    let s8 := (checkMemoReplicationFactor mesh s7 m).1
    runKills s8 step.2

/-- `Slab.prototype.subscribeRecord(record)`: observers are opaque tokens. -/
def subscribeRecord (s : Slab) (rid : String) (tok : Nat) : Slab :=
  let recs := (alGet s.records_by_id rid).getD []
  let recs' := if tok ∈ recs then recs else recs ++ [tok]
  { s with records_by_id := alSet s.records_by_id rid recs' }

/-- The record-index entry for `rid` (`this._memo_ids_by_record[record_id] || []`). -/
def ridx (s : Slab) (rid : String) : List String :=
  (alGet s.memo_ids_by_record rid).getD []

/-- The `forEach` body of `getHeadMemosForRecord`: fetch each listed memo via
`getMemo` (promoting it in the LRU) and keep it when `_memo_ids_by_parent` has
no (truthy) entry for its id.  A non-resident id makes `getMemo` return
`undefined` and the read of `memo.id` throws, aborting the loop. -/
def headLoop : Slab → List String → List Memo → List Memo × Slab × JsOutcome
  | s, [], acc => (acc, s, JsOutcome.ok)
  | s, mid :: rest, acc =>
    let r := getMemo s mid
    match r.1 with
    | none => (acc, r.2, JsOutcome.threw "TypeError: cannot read id of undefined")
    | some m =>
      headLoop r.2 rest
        (if jsFalsyStr (alGet r.2.memo_ids_by_parent m.id) then acc ++ [m] else acc)

/-- `Slab.prototype.getHeadMemosForRecord(record_id)`. -/
def getHeadMemosForRecord (s : Slab) (rid : String) : List Memo × Slab × JsOutcome :=
  headLoop s (ridx s rid) []

/-- `Slab.prototype.getHeadMemoIDsForRecord(record_id)`. -/
def getHeadMemoIDsForRecord (s : Slab) (rid : String) : List String × Slab × JsOutcome :=
  let r := getHeadMemosForRecord s rid
  (r.1.map Memo.id, r.2.1, r.2.2)

/- Slab construction (C7 of the spec). -/

/-- The constructor arguments the source inspects.  `id = none` models a missing
or otherwise falsy `args.id`; `quota`/`limit` of `none` model absent options and
the `||` defaulting also turns an explicit `0` into the default. -/
structure SlabArgs where
  id : Option String
  has_mesh : Bool
  quota : Option Int
  limit : Option Int
deriving Repr, DecidableEq

/-- `args.quota || 5` / `args.limit || 10`. -/
def jsOrDefault (o : Option Int) (d : Int) : Int :=
  match o with
  | none => d
  | some v => if v = 0 then d else v

/-- A slab as the constructor leaves it (`mesh.registerSlab(this)` recorded). -/
def freshSlab (sid : String) (quota limit : Int) : Slab :=
  ⟨sid, [], [], [], [], [], 0, quota, limit, [], [], [MeshCall.registerSlab sid], []⟩

/-- `function Slab(args)`.  The cap check `slab_increment > 1296` is performed
against the module-level counter, but the only `++slab_increment` in the source
sits inside a commented-out line, so the counter is threaded through unchanged:
construction never increments it. -/
def mkSlab (slab_increment : Nat) (args : SlabArgs) : Except String (Nat × Slab) :=
  if slab_increment > 1296 then Except.error "cannot create more than 1296 slabs"
  else match args.id with
    | none => Except.error "must provide slab id"
    | some sid =>
      if !args.has_mesh then Except.error "must provide mesh object"
      else if sid.length ≠ 1 then Except.error ("sanity error " ++ sid)
      else Except.ok (slab_increment,
        freshSlab sid (jsOrDefault args.quota 5) (jsOrDefault args.limit 10))

/-- Valid constructor arguments used to exercise the process-wide cap. -/
def validArgs : SlabArgs := ⟨some "a", true, none, none⟩

/-- Number of successful constructions among `n` consecutive `new Slab(...)`
calls with valid arguments, starting from counter value `ctr`. -/
def constructCount : Nat → Nat → Nat
  | _, 0 => 0
  | ctr, Nat.succ n =>
    match mkSlab ctr validArgs with
    | Except.ok r => 1 + constructCount r.1 n
    | Except.error _ => constructCount ctr n

/- Concrete fixtures used by the scenario theorems. -/

/-- A mesh with no accepting slabs. -/
def mesh0 : MeshFn := fun _ _ => []

/-- A mesh that always offers slab "B". -/
def mesh1 : MeshFn := fun _ _ => ["B"]

/-- LRU scenario memo (record r1, no parents, no desired replicas). -/
def mr1 : Memo := ⟨"m1", "r1", [], 0⟩

/-- LRU scenario memo for record r2. -/
def mr2 : Memo := ⟨"m2", "r2", [], 0⟩

/-- LRU scenario memo for record r3. -/
def mr3 : Memo := ⟨"m3", "r3", [], 0⟩

/-- LRU scenario memo for record r4. -/
def mr4 : Memo := ⟨"m4", "r4", [], 0⟩

/-- Slab with quota 2 and limit 3 after `put m1; put m2; put m3`. -/
def lruSlab3 : Slab :=
  putMemo mesh0 (putMemo mesh0 (putMemo mesh0 (freshSlab "A" 2 3) mr1) mr2) mr3

/-- The same slab after `get m1; put m4` (the put hits `size === limit`). -/
def lruSlab4 : Slab := putMemo mesh0 (getMemo lruSlab3 "m1").2 mr4

/-- Parent-chain scenario: the parentless memo "a" of record R. -/
def mA : Memo := ⟨"a", "R", [], 0⟩

/-- Parent-chain scenario: memo "b" of record R citing "a" as parent. -/
def mB : Memo := ⟨"b", "R", ["a"], 0⟩

/-- Slab holding the chain a ← b. -/
def slabAB : Slab := putMemo mesh0 (putMemo mesh0 (freshSlab "A" 5 10) mA) mB

/-- `slabAB` after the crashed `killMemo(b)` (the TypeError left "b" deleted
from `memos_by_id` and the record index but still recorded as the child of
"a"), then `subscribeRecord(R)`. -/
def slabAB_sub : Slab := subscribeRecord (killMemo slabAB "b").1 "R" 0

/-- Replication scenario memo with `desiredReplicas() = 0`. -/
def mC : Memo := ⟨"m", "r", [], 0⟩

/-- Slab holding `mC` (so that `mC` has its self-peering registered). -/
def repSlab : Slab := putMemo mesh0 (freshSlab "A" 5 10) mC

/-- The resident memo stored under `mid`, with a dummy default; used to state
record-index well-formedness hypotheses decidably. -/
def lookupMemoD (s : Slab) (mid : String) : Memo :=
  (alGet s.memos_by_id mid).getD ⟨"", "", [], 0⟩

/-- The memos `getHeadMemosForRecord` collects, computed directly over the
initial index maps (the LRU promotions performed along the way touch neither
`memos_by_id` nor `memo_ids_by_parent`, so the loop's decisions agree with
this one-shot reading). -/
def headsSpec (mm : List (String × Memo)) (mp : List (String × String)) :
    List String → List Memo :=
  List.filterMap (fun mid =>
    match alGet mm mid with
    | none => none
    | some m => if jsFalsyStr (alGet mp m.id) then some m else none)

/-- Head-computation scenario: parentless memo of record WR. -/
def wA : Memo := ⟨"wa", "WR", [], 0⟩

/-- Head-computation scenario: child memo of record WR citing "wa". -/
def wB : Memo := ⟨"wb", "WR", ["wa"], 0⟩

/-- Slab holding the chain wa ← wb in record WR. -/
def headSlab : Slab := putMemo mesh0 (putMemo mesh0 (freshSlab "W" 5 10) wA) wB

/-- LRU-promotion scenario: first memo of record PR. -/
def pA : Memo := ⟨"pa", "PR", [], 0⟩

/-- LRU-promotion scenario: a memo of the unrelated record PS. -/
def pB : Memo := ⟨"pb", "PS", [], 0⟩

/-- LRU-promotion scenario: second memo of record PR. -/
def pC : Memo := ⟨"pc", "PR", [], 0⟩

/-- Slab with LRU order pa, pb, pc (head to tail). -/
def promoSlab : Slab :=
  putMemo mesh0 (putMemo mesh0 (putMemo mesh0 (freshSlab "P" 5 10) pA) pB) pC

/- Claim theorems. -/

/-- Claim C1 (code bug): killing a resident, unprotected memo with a non-empty
parents set is claimed to update all three indexes, in particular to remove the
`memo_ids_by_parent` entries whose recorded child equals the departing memo's
id.  The code instead throws a TypeError there (`putMemo` stored a plain string
child id, on which `killMemo` calls `.splice`): on the chain a ← b, `killMemo(b)`
removes "b" from `memos_by_id` and from the record index, then throws, leaving
`memo_ids_by_parent["a"] = "b"` in place (and the LRU and size untouched). -/
theorem c1_kill_parent_index_crash :
    (killMemo slabAB "b").2 = JsOutcome.threw "TypeError: ref.splice is not a function" ∧
    alGet (killMemo slabAB "b").1.memos_by_id "b" = none ∧
    alGet (killMemo slabAB "b").1.memo_ids_by_record "R" = some ["a"] ∧
    alGet (killMemo slabAB "b").1.memo_ids_by_parent "a" = some "b" ∧
    (killMemo slabAB "b").1.lru = ["a", "b"] ∧
    (killMemo slabAB "b").1.size = 2 := by decide

/-- Claim C2 (code bug): `size` is claimed to equal the cardinality of
`memos_by_id` and the length of the LRU list at every quiescent point.  After
`put m1; put m2; put m3; get m1; put m4` on a slab with quota 2 and limit 3,
the fourth put takes the `size === limit` branch, which inserts the memo but
skips the size increment, and the scheduled evictions never kill (their promise
settles with the falsy `undefined`): `size = 3` while both `memos_by_id` and
the LRU hold 4 memos. -/
theorem c2_size_count_diverge :
    lruSlab4.size = 3 ∧
    lruSlab4.memos_by_id.length = 4 ∧
    lruSlab4.lru.length = 4 := by decide

/-- Claim C3 (code bug): on the quota-2 / limit-3 scenario the spec expects the
two LRU-head victims m2 and m3 to be evicted, leaving residents {m1, m4}.  In
the code `evictMemo` only kills when the replication promise settles truthy,
but for `desiredReplicas() = 0` the executor calls `success()` with no
argument, so the `.then` callback sees `undefined` and never kills; moreover
`ct = size - quota = 1` because the limit branch never incremented `size`.  All
four memos stay resident. -/
theorem c3_eviction_never_kills :
    lruSlab4.memos_by_id.map Prod.fst = ["m1", "m2", "m3", "m4"] ∧
    (alGet lruSlab4.memos_by_id "m2").isSome = true ∧
    (alGet lruSlab4.memos_by_id "m3").isSome = true ∧
    lruSlab4.lru = ["m2", "m3", "m1", "m4"] := by decide

/-- Claim C4 (code bug): for `desiredReplicas() ≤ 0` the check is claimed to
succeed with no action.  The source lacks a `return` after the early
`success()`, so it still asks the mesh for accepting slabs — and pushes the
memo to every slab the mesh returns — even for a desired count of 0: with
`mesh1` offering slab "B", a `push` of the memo to "B" is emitted. -/
theorem c4_replication_check_calls_mesh :
    mC.desired_replicas ≤ 0 ∧
    (checkMemoReplicationFactor mesh0 repSlab mC).1.calls =
      repSlab.calls ++ [MeshCall.getAccepting ["A"] 0] ∧
    (checkMemoReplicationFactor mesh1 repSlab mC).1.calls =
      repSlab.calls ++ [MeshCall.getAccepting ["A"] 0, MeshCall.push "A" "B" "m"] ∧
    (checkMemoReplicationFactor mesh0 repSlab mC).2 = PromiseVal.undef := by decide

/-- Claim C5 (confirmed): `putMemo` of a memo whose id is already resident is a
complete no-op — the entire slab state (all indexes, LRU, size, peering
registry, mesh-call log and notification log) is returned unchanged, because
the duplicate check is the first statement of the function. -/
theorem c5_put_idempotent (mesh : MeshFn) (s : Slab) (m : Memo)
    (h : (alGet s.memos_by_id m.id).isSome = true) :
    putMemo mesh s m = s := by
  simp [putMemo, h]

/-- Witness for C5: a second `putMemo` of the already-resident memo `mA`. -/
theorem c5_put_idempotent_witness :
    (alGet slabAB.memos_by_id mA.id).isSome = true ∧ putMemo mesh0 slabAB mA = slabAB :=
  ⟨by decide, c5_put_idempotent mesh0 slabAB mA (by decide)⟩

/-- Claim C6 (code bug): a resident head memo (no resident memo cites its id as
a parent) of a record with a subscriber is claimed to be protected from
`killMemo`.  The protection consults `memo_ids_by_parent`, which `killMemo`'s
crashed parent-cleanup leaves stale: after `put a; put b(parents=[a])`, a
crashed `killMemo(b)` (see C1) removes "b" but keeps the entry `"a" → "b"`.
Subscribing record R and calling `killMemo(a)` then kills "a" — even though
"a" is resident, R has a subscriber, and no resident memo cites "a". -/
theorem c6_head_protection_bypassed :
    alGet slabAB_sub.records_by_id "R" = some [0] ∧
    (alGet slabAB_sub.memos_by_id "a").isSome = true ∧
    slabAB_sub.memos_by_id.all (fun kv => !(kv.2.parents.contains "a")) = true ∧
    (killMemo slabAB_sub "a").2 = JsOutcome.ok ∧
    alGet (killMemo slabAB_sub "a").1.memos_by_id "a" = none := by decide

/-- Counterexample for C7: `evictMemo` on an unknown memo id does not "report
and return" — it throws the string 'attempted to evict invalid memo'. -/
theorem c7_unknown_evict_throws :
    (evictMemoById mesh0 (freshSlab "A" 5 10) "x").2.1 =
      JsOutcome.threw "attempted to evict invalid memo" := by decide

/-- Claim C7 as amended: on an unknown memo id, `killMemo` logs the usage error
and returns with the slab unchanged, while `evictMemo` throws (also leaving the
slab unchanged and scheduling no kill). -/
theorem c7_unknown_memo_nonfatal (mesh : MeshFn) (s : Slab) (x : String)
    (h : alGet s.memos_by_id x = none) :
    killMemo s x = (s, JsOutcome.logged) ∧
    evictMemoById mesh s x =
      (s, JsOutcome.threw "attempted to evict invalid memo", []) := by
  constructor
  · simp [killMemo, h]
  · simp [evictMemoById, h]

/-- Witness for the amended C7 at the unknown id "x" on a fresh slab. -/
theorem c7_unknown_memo_nonfatal_witness :
    alGet (freshSlab "A" 5 10).memos_by_id "x" = none ∧
    (killMemo (freshSlab "A" 5 10) "x" = (freshSlab "A" 5 10, JsOutcome.logged) ∧
      evictMemoById mesh0 (freshSlab "A" 5 10) "x" =
        (freshSlab "A" 5 10, JsOutcome.threw "attempted to evict invalid memo", [])) :=
  ⟨by decide, c7_unknown_memo_nonfatal mesh0 (freshSlab "A" 5 10) "x" (by decide)⟩

/-- Claim C8 (code bug): the 1296-slab process cap is claimed to make the
construction that exceeds it fail.  The only increment of `slab_increment` in
the source is inside a commented-out line, so the counter stays 0 and the cap
check `slab_increment > 1296` never fires: every one of `n` consecutive
constructions succeeds, for every `n` (in particular all 1297). -/
theorem c8_slab_cap_never_enforced : ∀ n : Nat, constructCount 0 n = n := by
  intro n
  induction n with
  | zero => rfl
  | succ k ih =>
    have hstep : constructCount 0 (k + 1) = 1 + constructCount 0 k := rfl
    rw [hstep, ih, Nat.add_comm]

/- Helper lemmas for the head-memo query (C9, C10). -/

/-- A successful association-list lookup exhibits a member of the list. -/
theorem alGet_mem {α : Type} (l : List (String × α)) (k : String) (v : α)
    (h : alGet l k = some v) : (k, v) ∈ l := by
  induction l with
  | nil => simp [alGet] at h
  | cons kv rest ih =>
    obtain ⟨k', v'⟩ := kv
    rw [alGet] at h
    split at h
    · rename_i heq
      cases h
      subst heq
      exact List.mem_cons_self _ _
    · exact List.mem_cons_of_mem _ (ih h)

/-- `getMemo` returns exactly the `memos_by_id` lookup. -/
theorem getMemo_fst (s : Slab) (mid : String) :
    (getMemo s mid).1 = alGet s.memos_by_id mid := by
  rcases h : alGet s.memos_by_id mid with _ | m <;> simp only [getMemo, h]
  split <;> rfl

/-- `getMemo` only reorders the LRU: the three index maps are untouched. -/
theorem getMemo_state (s : Slab) (mid : String) :
    (getMemo s mid).2.memos_by_id = s.memos_by_id ∧
    (getMemo s mid).2.memo_ids_by_parent = s.memo_ids_by_parent := by
  rcases h : alGet s.memos_by_id mid with _ | m
  · simp [getMemo, h]
  · simp only [getMemo, h]
    split <;> simp

/-- For a resident memo linked in a duplicate-free LRU, the promotion performed
by `getMemo` is erase-then-append (also when the memo already is the tail). -/
theorem getMemo_lru_promote (s : Slab) (mid : String)
    (hm : (alGet s.memos_by_id mid).isSome = true) (hnd : s.lru.Nodup) :
    (getMemo s mid).2.lru = s.lru.erase mid ++ [mid] := by
  obtain ⟨m, hm'⟩ := Option.isSome_iff_exists.mp hm
  simp only [getMemo, hm']
  split
  · rename_i hlast
    obtain ⟨l', hl⟩ := List.getLast?_eq_some_iff.mp hlast
    rw [hl] at hnd ⊢
    have hnotin : mid ∉ l' := by
      have hd := (List.nodup_append.mp hnd).2.2
      intro hc
      exact hd hc (List.mem_singleton_self mid)
    rw [List.erase_append_right _ hnotin]
    simp
  · rfl

/-- One step of `headLoop` when the fetched memo exists. -/
theorem headLoop_cons (s : Slab) (mid : String) (rest : List String)
    (acc : List Memo) (m : Memo) (hm : (getMemo s mid).1 = some m) :
    headLoop s (mid :: rest) acc =
      headLoop (getMemo s mid).2 rest
        (if jsFalsyStr (alGet (getMemo s mid).2.memo_ids_by_parent m.id) then
          acc ++ [m] else acc) := by
  rw [headLoop, hm]

/-- `headLoop` over resident ids completes normally, collects exactly the memos
`headsSpec` computes from the initial maps, and preserves `memos_by_id`. -/
theorem headLoop_spec (ids : List String) : ∀ (s : Slab) (acc : List Memo),
    (∀ mid ∈ ids, (alGet s.memos_by_id mid).isSome = true) →
    (headLoop s ids acc).1 = acc ++ headsSpec s.memos_by_id s.memo_ids_by_parent ids ∧
    (headLoop s ids acc).2.2 = JsOutcome.ok ∧
    (headLoop s ids acc).2.1.memos_by_id = s.memos_by_id := by
  induction ids with
  | nil => intro s acc _; simp [headLoop, headsSpec]
  | cons i rest ih =>
    intro s acc h
    obtain ⟨m, hm⟩ := Option.isSome_iff_exists.mp (h i (List.mem_cons_self i rest))
    have hfst : (getMemo s i).1 = some m := by rw [getMemo_fst, hm]
    have hstate := getMemo_state s i
    have hrest : ∀ mid ∈ rest, (alGet (getMemo s i).2.memos_by_id mid).isSome = true := by
      intro mid hmid
      rw [hstate.1]
      exact h mid (List.mem_cons_of_mem _ hmid)
    have ihx := ih (getMemo s i).2
      (if jsFalsyStr (alGet (getMemo s i).2.memo_ids_by_parent m.id) then acc ++ [m]
       else acc) hrest
    rw [headLoop_cons s i rest acc m hfst]
    refine ⟨?_, ihx.2.1, by rw [ihx.2.2, hstate.1]⟩
    rw [ihx.1, hstate.1, hstate.2]
    have hsi : headsSpec s.memos_by_id s.memo_ids_by_parent (i :: rest) =
        (if jsFalsyStr (alGet s.memo_ids_by_parent m.id) then [m] else []) ++
          headsSpec s.memos_by_id s.memo_ids_by_parent rest := by
      rw [headsSpec, List.filterMap_cons, hm]
      by_cases hc : jsFalsyStr (alGet s.memo_ids_by_parent m.id) = true
      · simp [hc]
      · simp [hc]
    rw [hsi]
    split
    · rename_i hcnd
      simp [hcnd]
    · rename_i hcnd
      simp [hcnd]

/-- `headLoop` moves the processed ids, in order, to the LRU tail, keeping the
remaining ids in their old relative order in front. -/
theorem headLoop_lru (ids : List String) : ∀ (s : Slab) (acc : List Memo),
    (∀ mid ∈ ids, (alGet s.memos_by_id mid).isSome = true) →
    s.lru.Nodup → ids.Nodup →
    (headLoop s ids acc).2.1.lru =
      s.lru.filter (fun mid => decide (mid ∉ ids)) ++ ids := by
  induction ids with
  | nil => intro s acc _ _ _; simp [headLoop]
  | cons i rest ih =>
    intro s acc h1 hnd hids
    obtain ⟨m, hm⟩ := Option.isSome_iff_exists.mp (h1 i (List.mem_cons_self i rest))
    have hfst : (getMemo s i).1 = some m := by rw [getMemo_fst, hm]
    have hmm : (getMemo s i).2.memos_by_id = s.memos_by_id := (getMemo_state s i).1
    have hlru : (getMemo s i).2.lru = s.lru.erase i ++ [i] :=
      getMemo_lru_promote s i (by rw [hm]; rfl) hnd
    have hinotrest : i ∉ rest := (List.nodup_cons.mp hids).1
    have hrestnd : rest.Nodup := (List.nodup_cons.mp hids).2
    have c1 : ∀ mid ∈ rest, (alGet (getMemo s i).2.memos_by_id mid).isSome = true := by
      intro mid hmid
      rw [hmm]
      exact h1 mid (List.mem_cons_of_mem _ hmid)
    have c3 : (getMemo s i).2.lru.Nodup := by
      rw [hlru]
      exact (hnd.erase i).append (List.nodup_singleton i)
        (List.disjoint_singleton.mpr hnd.not_mem_erase)
    rw [headLoop_cons s i rest acc m hfst]
    rw [ih (getMemo s i).2 _ c1 c3 hrestnd, hlru]
    rw [List.filter_append]
    have hi : [i].filter (fun mid => decide (mid ∉ rest)) = [i] := by
      simp [hinotrest]
    rw [hi, hnd.erase_eq_filter i, List.filter_filter]
    have hptw : s.lru.filter (fun a => decide (a ∉ rest) && (a != i)) =
        s.lru.filter (fun mid => decide (mid ∉ i :: rest)) := by
      apply List.filter_congr
      intro a _
      by_cases hai : a = i <;> by_cases har : a ∈ rest <;> simp [hai, har]
    rw [hptw]
    simp

/-- Claim C9 (confirmed): under the record-index and parent-index invariants
the spec itself states (each listed id resolves to a resident memo of the
record carrying that id; every resident memo of the record is listed; the
parent index has a truthy entry for a listed id exactly when some resident memo
cites it), `getHeadMemoIDsForRecord r` completes normally and contains an id x
exactly when x belongs to a resident memo of record r that no resident memo
cites as a parent. -/
theorem c9_head_ids_exact (s : Slab) (r x : String)
    (h1 : ∀ mid ∈ ridx s r, (alGet s.memos_by_id mid).isSome = true ∧
      (lookupMemoD s mid).rid = r ∧ (lookupMemoD s mid).id = mid)
    (h2 : ∀ kv ∈ s.memos_by_id, kv.2.rid = r → kv.1 ∈ ridx s r)
    (h3 : ∀ mid ∈ ridx s r,
      (jsFalsyStr (alGet s.memo_ids_by_parent mid) = true ↔
        ∀ kv ∈ s.memos_by_id, mid ∉ kv.2.parents)) :
    (getHeadMemoIDsForRecord s r).2.2 = JsOutcome.ok ∧
    (x ∈ (getHeadMemoIDsForRecord s r).1 ↔
      ∃ m, alGet s.memos_by_id x = some m ∧ m.rid = r ∧
        ∀ kv ∈ s.memos_by_id, x ∉ kv.2.parents) := by
  have hsome : ∀ mid ∈ ridx s r, (alGet s.memos_by_id mid).isSome = true :=
    fun mid hmid => (h1 mid hmid).1
  have hspec := headLoop_spec (ridx s r) s [] hsome
  have hids : (getHeadMemoIDsForRecord s r).1 =
      (headsSpec s.memos_by_id s.memo_ids_by_parent (ridx s r)).map Memo.id := by
    show ((headLoop s (ridx s r) []).1).map Memo.id = _
    rw [hspec.1]
    rfl
  refine ⟨hspec.2.1, ?_⟩
  rw [hids]
  constructor
  · intro hx
    rw [List.mem_map] at hx
    obtain ⟨m, hmem, hmid_eq⟩ := hx
    rw [headsSpec, List.mem_filterMap] at hmem
    obtain ⟨mid, hmid, hf⟩ := hmem
    rcases hg : alGet s.memos_by_id mid with _ | m0
    · rw [hg] at hf
      simp at hf
    · rw [hg] at hf
      dsimp only at hf
      have hfl : jsFalsyStr (alGet s.memo_ids_by_parent m0.id) = true := by
        by_contra hc
        rw [if_neg hc] at hf
        exact absurd hf (by simp)
      rw [if_pos hfl] at hf
      cases hf
      have h1m := h1 mid hmid
      have hm0id : m.id = mid := by
        have := h1m.2.2
        rwa [lookupMemoD, hg, Option.getD_some] at this
      have hm0rid : m.rid = r := by
        have := h1m.2.1
        rwa [lookupMemoD, hg, Option.getD_some] at this
      subst hmid_eq
      refine ⟨m, by rwa [hm0id], hm0rid, ?_⟩
      rw [hm0id]
      exact (h3 mid hmid).mp (by rwa [hm0id] at hfl)
  · rintro ⟨m, hm, hrid, hnc⟩
    have hxr : x ∈ ridx s r := h2 (x, m) (alGet_mem _ _ _ hm) hrid
    have h1x := h1 x hxr
    have hid : m.id = x := by
      have := h1x.2.2
      rwa [lookupMemoD, hm, Option.getD_some] at this
    have hfl : jsFalsyStr (alGet s.memo_ids_by_parent x) = true := (h3 x hxr).mpr hnc
    rw [List.mem_map]
    refine ⟨m, ?_, hid⟩
    rw [headsSpec, List.mem_filterMap]
    refine ⟨x, hxr, ?_⟩
    rw [hm]
    dsimp only
    rw [hid, if_pos hfl]

/-- Witness for C9 on the chain wa ← wb in record WR: the query succeeds and
"wb" is reported as a head id exactly as characterized. -/
theorem c9_head_ids_exact_witness :
    (∀ mid ∈ ridx headSlab "WR", (alGet headSlab.memos_by_id mid).isSome = true ∧
      (lookupMemoD headSlab mid).rid = "WR" ∧ (lookupMemoD headSlab mid).id = mid) ∧
    (∀ kv ∈ headSlab.memos_by_id, kv.2.rid = "WR" → kv.1 ∈ ridx headSlab "WR") ∧
    (∀ mid ∈ ridx headSlab "WR",
      (jsFalsyStr (alGet headSlab.memo_ids_by_parent mid) = true ↔
        ∀ kv ∈ headSlab.memos_by_id, mid ∉ kv.2.parents)) ∧
    ((getHeadMemoIDsForRecord headSlab "WR").2.2 = JsOutcome.ok ∧
      ("wb" ∈ (getHeadMemoIDsForRecord headSlab "WR").1 ↔
        ∃ m, alGet headSlab.memos_by_id "wb" = some m ∧ m.rid = "WR" ∧
          ∀ kv ∈ headSlab.memos_by_id, "wb" ∉ kv.2.parents)) :=
  ⟨by decide, by decide, by decide,
    c9_head_ids_exact headSlab "WR" "wb" (by decide) (by decide) (by decide)⟩

/-- Claim C10 (confirmed): `getHeadMemosForRecord` is not read-only.  With every
listed id resident and the LRU and record index duplicate-free, the query
leaves the LRU as: the unrelated ids in their old relative order, followed by
the record's ids in insertion order — so the record's last-inserted memo ends
up most recently used and every unrelated memo shifts toward the eviction
head. -/
theorem c10_head_query_promotes_lru (s : Slab) (r : String)
    (h1 : ∀ mid ∈ ridx s r, (alGet s.memos_by_id mid).isSome = true)
    (hnd : s.lru.Nodup) (hids : (ridx s r).Nodup) (hne : ridx s r ≠ []) :
    (getHeadMemosForRecord s r).2.1.lru =
      s.lru.filter (fun mid => decide (mid ∉ ridx s r)) ++ ridx s r ∧
    (getHeadMemosForRecord s r).2.1.lru.getLast? = (ridx s r).getLast? := by
  have h := headLoop_lru (ridx s r) s [] h1 hnd hids
  refine ⟨h, ?_⟩
  have hshow : (getHeadMemosForRecord s r).2.1.lru =
      s.lru.filter (fun mid => decide (mid ∉ ridx s r)) ++ ridx s r := h
  rw [hshow]
  exact List.getLast?_append_of_ne_nil _ hne

/-- Witness for C10: querying record PR on the slab with LRU pa, pb, pc moves
pa and pc behind pb, making pc (the record's last insert) most recently
used. -/
theorem c10_head_query_promotes_lru_witness :
    (∀ mid ∈ ridx promoSlab "PR", (alGet promoSlab.memos_by_id mid).isSome = true) ∧
    promoSlab.lru.Nodup ∧ (ridx promoSlab "PR").Nodup ∧ ridx promoSlab "PR" ≠ [] ∧
    ((getHeadMemosForRecord promoSlab "PR").2.1.lru =
      promoSlab.lru.filter (fun mid => decide (mid ∉ ridx promoSlab "PR")) ++
        ridx promoSlab "PR" ∧
      (getHeadMemosForRecord promoSlab "PR").2.1.lru.getLast? =
        (ridx promoSlab "PR").getLast?) :=
  ⟨by decide, by decide, by decide, by decide,
    c10_head_query_promotes_lru promoSlab "PR" (by decide) (by decide) (by decide)
      (by decide)⟩

end Unbase
